import Mathlib

/-!
Verification of the concurrent request-queue subsystem of the
gemini-mcp-server repository against its natural-language specification.

The development shallowly embeds the Python sources:

* `src/gemini_mcp_server/rate_limiter.py`   — sliding-window rate limiter
* `src/gemini_mcp_server/queue_manager.py`  — persistent priority queue and worker
* `src/gemini_mcp_server/retry_handler.py`  — circuit breaker and retry glue

Timestamps (Python `time.time()` floats) are modelled as rationals `ℚ`.
Python exceptions relevant to the claims are modelled by a small inductive
type together with an `isinstance` relation.  Fallible operations return
sum types.  All definitions are executable so that concrete runs can be
checked by `decide` / `rfl`.
-/

/-- Embeds `RequestStatus` (queue_manager.py lines 17-24): the status of a
request in the queue. -/
inductive RequestStatus
  | pending
  | processing
  | completed
  | failed
  | cancelled
deriving DecidableEq, Repr

/-- Embeds `RequestPriority` (queue_manager.py lines 27-32): priority levels
for requests. -/
inductive RequestPriority
  | low
  | normal
  | high
deriving DecidableEq, Repr

/-- Embeds the `QueuedRequest` dataclass (queue_manager.py lines 35-51).
The opaque `args`/`kwargs` payload is never inspected by any queue logic and
is elided; `result` is kept as an opaque string payload. -/
structure QueuedRequest where
  id : String
  function_name : String
  priority : RequestPriority
  status : RequestStatus
  created_at : ℚ
  started_at : Option ℚ := none
  completed_at : Option ℚ := none
  result : Option String := none
  error : Option String := none
  retry_count : Nat := 0
  max_retries : Nat := 3
deriving DecidableEq, Repr

/-- Embeds `AsyncRequestQueue._get_priority_value` (queue_manager.py lines
195-202): converts a priority to the numeric sort key used by the priority
queue (HIGH → 1, NORMAL → 2, LOW → 3; lower value dequeued first). -/
def get_priority_value : RequestPriority → Nat
  | .high => 1
  | .normal => 2
  | .low => 3

/-- An element of the in-memory `asyncio.PriorityQueue`: the tuple
`(priority_value, created_at, request)` built at queue_manager.py lines
267-268, 188 and 389. -/
structure MemEntry where
  priorityValue : Nat
  createdAt : ℚ
  req : QueuedRequest
deriving DecidableEq, Repr

/-- Builds a fresh pending request the way `enqueue` does
(queue_manager.py lines 250-260). -/
def mkRequest (id fn : String) (prio : RequestPriority) (now : ℚ)
    (maxRetries : Nat) : QueuedRequest :=
  { id := id, function_name := fn, priority := prio, status := .pending,
    created_at := now, max_retries := maxRetries }

/-- The queue entry that `enqueue` would put for a request
(queue_manager.py lines 267-268). -/
def mkEntry (r : QueuedRequest) : MemEntry :=
  ⟨get_priority_value r.priority, r.created_at, r⟩

/-! ## Sliding-window rate limiter (rate_limiter.py) -/

/-- Embeds the `RateLimiter` state (rate_limiter.py lines 9-20):
`max_calls` calls allowed per trailing `time_window` seconds, with the
timestamps of recent admitted calls kept in `calls`. -/
structure RateLimiter where
  max_calls : Nat
  time_window : ℚ
  calls : List ℚ
deriving DecidableEq, Repr

/-- Embeds `RateLimiter.acquire` (rate_limiter.py lines 22-44): prune
timestamps older than `time_window`, then admit (returning `true` and
recording `now`) exactly when fewer than `max_calls` remain. -/
def RateLimiter.acquire (rl : RateLimiter) (now : ℚ) : Bool × RateLimiter :=
  let kept := rl.calls.filter (fun t => decide (now - t < rl.time_window))
  if kept.length < rl.max_calls then
    (true, { rl with calls := kept ++ [now] })
  else
    (false, { rl with calls := kept })

/-- Runs a sequence of `acquire` calls at the given clock readings and also
returns the list of timestamps that were recorded (admitted). -/
def runAcquires (rl : RateLimiter) : List ℚ → RateLimiter × List ℚ
  | [] => (rl, [])
  | t :: ts =>
    let step := rl.acquire t
    let rest := runAcquires step.2 ts
    (rest.1, (if step.1 then [t] else []) ++ rest.2)

/-- The timestamps falling in the trailing window `(T - w, T]`. -/
def inWindow (w T t : ℚ) : Bool := decide (T - w < t) && decide (t ≤ T)

/-- The sliding-window bound: no trailing window of length `w` contains more
than `mc` of the recorded timestamps. -/
def windowOK (mc : Nat) (w : ℚ) (adm : List ℚ) : Prop :=
  ∀ T : ℚ, (adm.filter (inWindow w T)).length ≤ mc

theorem length_filter_mono {α : Type} {p q : α → Bool} :
    ∀ l : List α, (∀ x ∈ l, p x = true → q x = true) →
      (l.filter p).length ≤ (l.filter q).length := by
  intro l
  induction l with
  | nil => intro _; simp
  | cons a l ih =>
    intro h
    have hl := ih (fun x hx => h x (List.mem_cons_of_mem a hx))
    by_cases ha : p a = true
    · rw [List.filter_cons_of_pos ha, List.filter_cons_of_pos (h a (List.mem_cons_self a l) ha)]
      simpa using hl
    · rw [List.filter_cons_of_neg (by simpa using ha)]
      by_cases hqa : q a = true
      · rw [List.filter_cons_of_pos hqa]
        exact hl.trans (Nat.le_succ _)
      · rw [List.filter_cons_of_neg (by simpa using hqa)]
        exact hl

theorem filter_window_shift (w n t : ℚ) (hnt : n ≤ t) (adm : List ℚ) :
    (adm.filter (fun x => decide (n - x < w))).filter (fun x => decide (t - x < w))
      = adm.filter (fun x => decide (t - x < w)) := by
  rw [List.filter_filter]
  refine List.filter_congr ?_
  intro x _
  by_cases h : t - x < w
  · have hn : n - x < w := lt_of_le_of_lt (by linarith) h
    simp [h, hn]
  · simp [h]

theorem windowOK_append (mc : Nat) (w : ℚ) (adm : List ℚ) (t : ℚ)
    (hcount : (adm.filter (fun x => decide (t - x < w))).length < mc)
    (hOK : windowOK mc w adm) : windowOK mc w (adm ++ [t]) := by
  intro T
  rw [List.filter_append]
  by_cases ht : inWindow w T t = true
  · have hsub : ∀ x ∈ adm, inWindow w T x = true → (decide (t - x < w)) = true := by
      intro x _ hx
      simp only [inWindow, Bool.and_eq_true, decide_eq_true_eq] at ht hx
      have : t - x ≤ T - x := by linarith [ht.2]
      simp only [decide_eq_true_eq]
      linarith [hx.1]
    have hlen : (adm.filter (inWindow w T)).length
        ≤ (adm.filter (fun x => decide (t - x < w))).length :=
      length_filter_mono adm hsub
    simp only [List.filter, ht, List.length_append, List.length_cons, List.length_nil]
    omega
  · simp only [List.filter, ht]
    simpa using hOK T

theorem runAcquires_windowOK (mc : Nat) (w : ℚ) (hw : 0 < w) :
    ∀ (ts : List ℚ) (rl : RateLimiter) (n : ℚ) (adm : List ℚ),
      rl.max_calls = mc → rl.time_window = w →
      rl.calls = adm.filter (fun x => decide (n - x < w)) →
      List.Chain (· ≤ ·) n ts →
      (∀ a ∈ adm, a ≤ n) →
      windowOK mc w adm →
      windowOK mc w (adm ++ (runAcquires rl ts).2) := by
  intro ts
  induction ts with
  | nil =>
    intro rl n adm _ _ _ _ _ hOK
    simpa [runAcquires] using hOK
  | cons t ts ih =>
    intro rl n adm hmc hwin hcalls hchain hbound hOK
    rcases hchain with _ | ⟨hnt, hchain'⟩
    have hkept : rl.calls.filter (fun x => decide (t - x < rl.time_window))
        = adm.filter (fun x => decide (t - x < w)) := by
      rw [hcalls, hwin]
      exact filter_window_shift w n t hnt adm
    by_cases hadm : (rl.calls.filter (fun x => decide (t - x < rl.time_window))).length
        < rl.max_calls
    · -- admitted: the timestamp t is recorded
      have hcount : (adm.filter (fun x => decide (t - x < w))).length < mc := by
        rw [← hkept, ← hmc]; exact hadm
      have hstep : rl.acquire t =
          (true, { rl with calls := adm.filter (fun x => decide (t - x < w)) ++ [t] }) := by
        simp only [RateLimiter.acquire, hkept]
        rw [if_pos (hkept ▸ hadm)]
      have hOK' : windowOK mc w (adm ++ [t]) := windowOK_append mc w adm t hcount hOK
      have hbound' : ∀ a ∈ adm ++ [t], a ≤ t := by
        intro a ha
        rcases List.mem_append.mp ha with h | h
        · exact le_trans (hbound a h) hnt
        · simp at h; simp [h]
      have hcalls' : (adm.filter (fun x => decide (t - x < w)) ++ [t])
          = (adm ++ [t]).filter (fun x => decide (t - x < w)) := by
        rw [List.filter_append]
        have htt : decide (t - t < w) = true := by simp; linarith
        simp [List.filter_cons, htt, if_pos hw]
      have := ih { rl with calls := adm.filter (fun x => decide (t - x < w)) ++ [t] }
        t (adm ++ [t]) hmc hwin (by simpa using hcalls') hchain' hbound' hOK'
      simpa [runAcquires, hstep] using this
    · -- denied: nothing is recorded
      have hstep : rl.acquire t =
          (false, { rl with calls := adm.filter (fun x => decide (t - x < w)) }) := by
        simp only [RateLimiter.acquire, hkept]
        rw [if_neg (by rw [hkept] at hadm; exact hkept ▸ hadm)]
      have hcalls' : adm.filter (fun x => decide (t - x < w))
          = adm.filter (fun x => decide (t - x < w)) := rfl
      have := ih { rl with calls := adm.filter (fun x => decide (t - x < w)) }
        t adm hmc hwin rfl hchain' (fun a ha => le_trans (hbound a ha) hnt) hOK
      simpa [runAcquires, hstep] using this

/-- C3: over any monotone sequence of `acquire()` calls, the number of
recorded timestamps lying within any trailing `time_window`-second interval
never exceeds `max_calls`; moreover a single call returns `true` and appends
the current time exactly when the count of timestamps remaining after
pruning entries older than `time_window` is strictly below `max_calls`, and
otherwise returns `false` without recording anything. -/
theorem rate_limiter_sliding_window (mc : Nat) (w : ℚ) (hw : 0 < w)
    (ts : List ℚ) (hts : List.Chain' (· ≤ ·) ts) :
    windowOK mc w (runAcquires ⟨mc, w, []⟩ ts).2
    ∧ (∀ (rl : RateLimiter) (now : ℚ),
        ((rl.acquire now).1 = true ↔
          (rl.calls.filter (fun t => decide (now - t < rl.time_window))).length
            < rl.max_calls)
        ∧ ((rl.acquire now).1 = true →
            (rl.acquire now).2.calls
              = rl.calls.filter (fun t => decide (now - t < rl.time_window)) ++ [now])
        ∧ ((rl.acquire now).1 = false →
            (rl.acquire now).2.calls
              = rl.calls.filter (fun t => decide (now - t < rl.time_window)))) := by
  constructor
  · cases ts with
    | nil =>
      intro T; simp [runAcquires]
    | cons t ts' =>
      have h := runAcquires_windowOK mc w hw (t :: ts') ⟨mc, w, []⟩ t []
        rfl rfl (by simp) (List.Chain.cons le_rfl hts) (by simp)
        (fun T => by simp)
      simpa using h
  · intro rl now
    refine ⟨?_, ?_, ?_⟩
    · unfold RateLimiter.acquire
      by_cases h : (rl.calls.filter
          (fun t => decide (now - t < rl.time_window))).length < rl.max_calls
      · simp [h]
      · simp [h]
    · unfold RateLimiter.acquire
      by_cases h : (rl.calls.filter
          (fun t => decide (now - t < rl.time_window))).length < rl.max_calls
      · simp [h]
      · simp [h]
    · unfold RateLimiter.acquire
      by_cases h : (rl.calls.filter
          (fun t => decide (now - t < rl.time_window))).length < rl.max_calls
      · simp [h]
      · simp [h]

/-- Witness for C3 at `max_calls = 1`, `time_window = 60`, call times
`[0, 10, 70]`. -/
theorem rate_limiter_sliding_window_witness :
    (0 : ℚ) < 60 ∧ List.Chain' (· ≤ ·) [(0 : ℚ), 10, 70]
    ∧ (windowOK 1 60 (runAcquires ⟨1, 60, []⟩ [0, 10, 70]).2
       ∧ (∀ (rl : RateLimiter) (now : ℚ),
          ((rl.acquire now).1 = true ↔
            (rl.calls.filter (fun t => decide (now - t < rl.time_window))).length
              < rl.max_calls)
          ∧ ((rl.acquire now).1 = true →
              (rl.acquire now).2.calls
                = rl.calls.filter (fun t => decide (now - t < rl.time_window)) ++ [now])
          ∧ ((rl.acquire now).1 = false →
              (rl.acquire now).2.calls
                = rl.calls.filter (fun t => decide (now - t < rl.time_window))))) :=
  ⟨by norm_num, by simp [List.chain'_cons, List.chain'_singleton]; norm_num,
    rate_limiter_sliding_window 1 60 (by norm_num) [0, 10, 70]
      (by simp [List.chain'_cons, List.chain'_singleton]; norm_num)⟩

/-! ## Priority ordering of the queue (queue_manager.py)

The in-memory queue is an `asyncio.PriorityQueue` of `(priority_value,
created_at, request)` tuples; the library's contract is that `get` always
retrieves the entry with the lowest tuple.  `keyLtB` is the strict tuple
order on the `(priority_value, created_at)` prefix of the key; the payload
comparison that arises only between entries with identical key prefixes is
modelled separately for claim C10. -/

/-- The strict lexicographic order on `(priority_value, created_at)`, the
key prefix of the tuples put into the priority queue. -/
def keyLtB (a b : MemEntry) : Bool :=
  decide (a.priorityValue < b.priorityValue)
  || (decide (a.priorityValue = b.priorityValue) && decide (a.createdAt < b.createdAt))

/-- Selects the entry with the lowest key from a nonempty pool, returning it
together with the remaining entries.  Models the retrieval order of
`asyncio.PriorityQueue.get`. -/
def selectMin : MemEntry → List MemEntry → MemEntry × List MemEntry
  | e, [] => (e, [])
  | e, f :: rest =>
    if keyLtB f e then
      let r := selectMin f rest
      (r.1, e :: r.2)
    else
      let r := selectMin e rest
      (r.1, f :: r.2)

/-- One dequeue from the priority queue: the lowest-key entry, or `none` if
the queue is empty. -/
def dequeueMin : List MemEntry → Option (MemEntry × List MemEntry)
  | [] => none
  | e :: rest => some (selectMin e rest)

/-- Repeated dequeueing, listing the request ids in retrieval order. -/
def drainAux : Nat → List MemEntry → List String
  | 0, _ => []
  | _ + 1, [] => []
  | n + 1, e :: rest =>
    let r := selectMin e rest
    r.1.req.id :: drainAux n r.2

/-- The ids of all queued requests in the order the worker would dequeue
them. -/
def drainIds (q : List MemEntry) : List String := drainAux q.length q

theorem keyLtB_irrefl (x : MemEntry) : keyLtB x x = false := by
  simp [keyLtB]

theorem keyLtB_trans {a b c : MemEntry} (h1 : keyLtB a b = true)
    (h2 : keyLtB b c = true) : keyLtB a c = true := by
  simp only [keyLtB, Bool.or_eq_true, Bool.and_eq_true, decide_eq_true_eq] at *
  rcases h1 with h1 | ⟨h1e, h1c⟩ <;> rcases h2 with h2 | ⟨h2e, h2c⟩
  · exact Or.inl (h1.trans h2)
  · exact Or.inl (h2e ▸ h1)
  · exact Or.inl (h1e ▸ h2)
  · exact Or.inr ⟨h1e.trans h2e, h1c.trans h2c⟩

theorem keyLtB_false_iff (a b : MemEntry) :
    keyLtB a b = false ↔
      b.priorityValue < a.priorityValue
      ∨ (b.priorityValue = a.priorityValue ∧ b.createdAt ≤ a.createdAt) := by
  rw [Bool.eq_false_iff]
  simp only [ne_eq, keyLtB, Bool.or_eq_true, Bool.and_eq_true, decide_eq_true_eq]
  push_neg
  constructor
  · rintro ⟨h1, h2⟩
    rcases lt_trichotomy b.priorityValue a.priorityValue with h | h | h
    · exact Or.inl h
    · exact Or.inr ⟨h, by have := h2 h.symm; linarith⟩
    · omega
  · rintro (h | ⟨he, hc⟩)
    · exact ⟨by omega, fun hEq => by omega⟩
    · exact ⟨by omega, fun _ => by linarith⟩

theorem keyLtB_neg_trans {x y z : MemEntry} (h1 : keyLtB x y = false)
    (h2 : keyLtB z x = false) : keyLtB z y = false := by
  rw [keyLtB_false_iff] at *
  rcases h1 with h1 | ⟨h1e, h1c⟩ <;> rcases h2 with h2 | ⟨h2e, h2c⟩
  · exact Or.inl (by omega)
  · exact Or.inl (by omega)
  · exact Or.inl (by omega)
  · exact Or.inr ⟨by omega, by linarith⟩

theorem keyLtB_total {a b : MemEntry}
    (h : a.priorityValue ≠ b.priorityValue ∨ a.createdAt ≠ b.createdAt) :
    keyLtB a b = true ∨ keyLtB b a = true := by
  simp only [keyLtB, Bool.or_eq_true, Bool.and_eq_true, decide_eq_true_eq]
  rcases lt_trichotomy a.priorityValue b.priorityValue with hp | hp | hp
  · exact Or.inl (Or.inl hp)
  · rcases h with h | h
    · exact absurd hp h
    · rcases lt_or_gt_of_ne h with hc | hc
      · exact Or.inl (Or.inr ⟨hp, hc⟩)
      · exact Or.inr (Or.inr ⟨hp.symm, hc⟩)
  · exact Or.inr (Or.inl hp)

theorem selectMin_fst_mem (e : MemEntry) (l : List MemEntry) :
    (selectMin e l).1 = e ∨ (selectMin e l).1 ∈ l := by
  induction l generalizing e with
  | nil => simp [selectMin]
  | cons f rest ih =>
    by_cases h : keyLtB f e = true
    · simp only [selectMin, if_pos h]
      rcases ih f with h1 | h1
      · exact Or.inr (by simp [h1])
      · exact Or.inr (by simp [h1])
    · simp only [selectMin, if_neg h]
      rcases ih e with h1 | h1
      · exact Or.inl h1
      · exact Or.inr (by simp [h1])

theorem selectMin_not_below (e : MemEntry) (l : List MemEntry) :
    ∀ x, (x = e ∨ x ∈ l) → keyLtB x (selectMin e l).1 = false := by
  induction l generalizing e with
  | nil =>
    rintro x (rfl | hx)
    · simpa [selectMin] using keyLtB_irrefl x
    · cases hx
  | cons f rest ih =>
    intro x hx
    by_cases h : keyLtB f e = true
    · simp only [selectMin, if_pos h]
      rcases hx with rfl | hx
      · cases hk : keyLtB x (selectMin f rest).1 with
        | false => rfl
        | true =>
          have hfm := keyLtB_trans h hk
          have hfalse := ih f f (Or.inl rfl)
          rw [hfm] at hfalse
          exact absurd hfalse (by simp)
      · rcases List.mem_cons.mp hx with hxf | hx'
        · exact ih f x (Or.inl hxf)
        · exact ih f x (Or.inr hx')
    · simp only [selectMin, if_neg h]
      rcases hx with hxe | hx
      · exact ih e x (Or.inl hxe)
      · rcases List.mem_cons.mp hx with hxf | hx'
        · rw [hxf]
          exact keyLtB_neg_trans (ih e e (Or.inl rfl)) (by simpa using h)
        · exact ih e x (Or.inr hx')

/-- The three items of the spec's ordering example: A(NORMAL, t=0),
B(HIGH, t=1), C(HIGH, t=0). -/
def exampleC4 : List MemEntry :=
  [mkEntry (mkRequest "A" "f" .normal 0 3),
   mkEntry (mkRequest "B" "f" .high 1 3),
   mkEntry (mkRequest "C" "f" .high 0 3)]

/-- All six orders in which the three example items can be enqueued. -/
def exampleC4Orders : List (List MemEntry) :=
  match exampleC4 with
  | [a, b, c] =>
    [[a, b, c], [a, c, b], [b, a, c], [b, c, a], [c, a, b], [c, b, a]]
  | _ => []

/-- C4: for every pool of pending items with pairwise-distinct
`(priority, created_at)` keys, dequeue yields the item with the
numerically-lowest priority value (HIGH maps below NORMAL below LOW, so
HIGH is dequeued first), breaking priority ties by the earlier
`created_at`; and for the spec's example A(NORMAL,0), B(HIGH,1), C(HIGH,0)
enqueued in any order, the dequeue order is C, B, A. -/
theorem dequeue_priority_order (q : List MemEntry) (hq : q ≠ [])
    (hdist : q.Pairwise (fun a b =>
      a.priorityValue ≠ b.priorityValue ∨ a.createdAt ≠ b.createdAt)) :
    (∃ e rest, dequeueMin q = some (e, rest) ∧ e ∈ q ∧
      ∀ x ∈ q, x ≠ e → keyLtB e x = true)
    ∧ (get_priority_value .high < get_priority_value .normal
       ∧ get_priority_value .normal < get_priority_value .low)
    ∧ (∀ p ∈ exampleC4Orders, drainIds p = ["C", "B", "A"]) := by
  refine ⟨?_, by decide, by decide⟩
  cases q with
  | nil => exact absurd rfl hq
  | cons e rest =>
    refine ⟨(selectMin e rest).1, (selectMin e rest).2, by simp [dequeueMin], ?_, ?_⟩
    · rcases selectMin_fst_mem e rest with h | h
      · simp [h]
      · simp [h]
    · intro x hx hne
      have hnb : keyLtB x (selectMin e rest).1 = false :=
        selectMin_not_below e rest x (by simpa using List.mem_cons.mp hx)
      have hsym : Symmetric (fun a b : MemEntry =>
          a.priorityValue ≠ b.priorityValue ∨ a.createdAt ≠ b.createdAt) := by
        intro a b hab
        rcases hab with h1 | h1
        · exact Or.inl h1.symm
        · exact Or.inr h1.symm
      have hmem : (selectMin e rest).1 ∈ e :: rest := by
        rcases selectMin_fst_mem e rest with h | h
        · simp [h]
        · simp [h]
      have hkeys := hdist.forall hsym hx hmem hne
      rcases keyLtB_total hkeys with h | h
      · rw [h] at hnb; exact absurd hnb (by simp)
      · exact h

/-- Witness for C4: the example pool itself is nonempty with
pairwise-distinct keys. -/
theorem dequeue_priority_order_witness :
    (exampleC4 ≠ []
     ∧ exampleC4.Pairwise (fun a b =>
        a.priorityValue ≠ b.priorityValue ∨ a.createdAt ≠ b.createdAt))
    ∧ ((∃ e rest, dequeueMin exampleC4 = some (e, rest) ∧ e ∈ exampleC4 ∧
        ∀ x ∈ exampleC4, x ≠ e → keyLtB e x = true)
      ∧ (get_priority_value .high < get_priority_value .normal
         ∧ get_priority_value .normal < get_priority_value .low)
      ∧ (∀ p ∈ exampleC4Orders, drainIds p = ["C", "B", "A"])) :=
  ⟨⟨by decide, by decide⟩,
    dequeue_priority_order exampleC4 (by decide) (by decide)⟩

/-! ## Request processing and retries (queue_manager.py `_process_request`) -/

/-- Embeds the success/retry/failure core of
`AsyncRequestQueue._process_request` (queue_manager.py lines 354-406).
The concurrency semaphore and the rate-limit wait loop gate only the timing
of the workload invocation and are modelled separately; the workload
invocation itself is modelled by its outcome (`Except error result`).
Returns the updated request, whether it was re-enqueued for a retry
(line 389), and the statuses assigned to the request during the call. -/
def process_request (r : QueuedRequest) (outcome : Except String String)
    (tStart tEnd : ℚ) : QueuedRequest × Bool × List RequestStatus :=
  let rp := { r with status := RequestStatus.processing, started_at := some tStart }
  match outcome with
  | .ok res =>
    let rc := { rp with
      status := RequestStatus.completed
      completed_at := some tEnd
      result := some res }
    (rc, false, [.processing, .completed])
  | .error e =>
    let n := rp.retry_count + 1
    if n ≤ rp.max_retries then
      let rr := { rp with retry_count := n, status := RequestStatus.pending }
      (rr, true, [.processing, .pending])
    else
      let rf := { rp with
        retry_count := n
        status := RequestStatus.failed
        completed_at := some tEnd
        error := some e }
      (rf, false, [.processing, .failed])

/-- Iterates `process_request` with an always-failing workload until the
request is no longer re-enqueued (or fuel runs out), counting attempts and
collecting the status trace. -/
def runAlwaysFail (err : String) (t : ℚ) :
    QueuedRequest → Nat → Nat × QueuedRequest × List RequestStatus
  | r, 0 => (0, r, [])
  | r, fuel + 1 =>
    let step := process_request r (.error err) t t
    if step.2.1 then
      let rest := runAlwaysFail err t step.1 fuel
      (rest.1 + 1, rest.2.1, step.2.2 ++ rest.2.2)
    else
      (1, step.1, step.2.2)

/-- The status trace of an always-failing request that is retried `k`
times: k alternations PROCESSING/PENDING and then PROCESSING/FAILED. -/
def failTrace : Nat → List RequestStatus
  | 0 => [.processing, .failed]
  | k + 1 => .processing :: .pending :: failTrace k

theorem runAlwaysFail_spec (err : String) (t : ℚ) :
    ∀ (k : Nat) (r : QueuedRequest) (fuel : Nat),
      r.max_retries = r.retry_count + k →
      k + 1 ≤ fuel →
      (runAlwaysFail err t r fuel).1 = k + 1
      ∧ (runAlwaysFail err t r fuel).2.1.status = .failed
      ∧ (runAlwaysFail err t r fuel).2.1.retry_count = r.max_retries + 1
      ∧ (runAlwaysFail err t r fuel).2.2 = failTrace k := by
  intro k
  induction k with
  | zero =>
    intro r fuel hmax hfuel
    obtain ⟨fuel', rfl⟩ : ∃ f, fuel = f + 1 :=
      ⟨fuel - 1, by omega⟩
    have hnot : ¬ (r.retry_count + 1 ≤ r.max_retries) := by omega
    simp only [runAlwaysFail, process_request, if_neg hnot]
    refine ⟨rfl, rfl, by simp; omega, rfl⟩
  | succ k ih =>
    intro r fuel hmax hfuel
    obtain ⟨fuel', rfl⟩ : ∃ f, fuel = f + 1 :=
      ⟨fuel - 1, by omega⟩
    have hyes : r.retry_count + 1 ≤ r.max_retries := by omega
    have ihr := ih
      { r with
        started_at := some t
        retry_count := r.retry_count + 1
        status := RequestStatus.pending }
      fuel' (by simp; omega) (by omega)
    simp only [runAlwaysFail, process_request, if_pos hyes, ihr.1, ihr.2.2.2]
    refine ⟨by simp [if_pos trivial], ?_, ?_, ?_⟩
    · simpa [if_pos trivial] using ihr.2.1
    · have := ihr.2.2.1
      simp only [if_pos trivial]
      simp at this
      simpa using this
    · simp [if_pos trivial, failTrace]

/-- Counterexample for C1 as stated: a request enqueued with max_retries = 2
whose workload fails on every attempt ends with retry_count = 3, not 2 (the
code increments retry_count once more on the final failure before deciding
it is terminal, queue_manager.py lines 380-396). -/
theorem retry_count_counterexample :
    (runAlwaysFail "boom" 5 (mkRequest "r1" "f" .normal 0 2) 10).2.1.retry_count = 3
    ∧ ¬ (runAlwaysFail "boom" 5 (mkRequest "r1" "f" .normal 0 2) 10).2.1.retry_count
        = 2 := by
  decide

/-- C1 (amended): a request enqueued with max_retries = 2 whose workload
fails on every attempt passes through PENDING→PROCESSING three times
(3 attempts total, trace PROCESSING, PENDING, PROCESSING, PENDING,
PROCESSING, FAILED), ends in terminal FAILED, and its final retry_count is
3 = max_retries + 1; any request that is re-enqueued for a retry satisfies
retry_count ≤ max_retries and is re-enqueued as PENDING. -/
theorem retry_exhaustion (err : String) (t : ℚ) (r : QueuedRequest)
    (hrc : r.retry_count = 0) (hmax : r.max_retries = 2)
    (fuel : Nat) (hfuel : 3 ≤ fuel) :
    (runAlwaysFail err t r fuel).1 = 3
    ∧ (runAlwaysFail err t r fuel).2.1.status = .failed
    ∧ (runAlwaysFail err t r fuel).2.1.retry_count = 3
    ∧ (runAlwaysFail err t r fuel).2.2
        = [.processing, .pending, .processing, .pending, .processing, .failed]
    ∧ (∀ (r' : QueuedRequest) (out : Except String String) (t1 t2 : ℚ),
        (process_request r' out t1 t2).2.1 = true →
        (process_request r' out t1 t2).1.retry_count ≤ r'.max_retries
        ∧ (process_request r' out t1 t2).1.status = .pending) := by
  have h := runAlwaysFail_spec err t 2 r fuel (by omega) (by omega)
  refine ⟨h.1, h.2.1, by rw [h.2.2.1, hmax], by rw [h.2.2.2]; rfl, ?_⟩
  intro r' out t1 t2 hq
  cases out with
  | ok res => simp [process_request] at hq
  | error e =>
    by_cases hle : r'.retry_count + 1 ≤ r'.max_retries
    · simp only [process_request, if_pos hle]
      exact ⟨hle, trivial⟩
    · simp [process_request, if_neg hle] at hq

/-- Witness for C1 (amended) at a concrete request. -/
theorem retry_exhaustion_witness :
    ((mkRequest "r1" "f" .normal 0 2).retry_count = 0
     ∧ (mkRequest "r1" "f" .normal 0 2).max_retries = 2 ∧ 3 ≤ 10)
    ∧ ((runAlwaysFail "boom" 5 (mkRequest "r1" "f" .normal 0 2) 10).1 = 3
      ∧ (runAlwaysFail "boom" 5 (mkRequest "r1" "f" .normal 0 2) 10).2.1.status = .failed
      ∧ (runAlwaysFail "boom" 5 (mkRequest "r1" "f" .normal 0 2) 10).2.1.retry_count = 3
      ∧ (runAlwaysFail "boom" 5 (mkRequest "r1" "f" .normal 0 2) 10).2.2
          = [.processing, .pending, .processing, .pending, .processing, .failed]
      ∧ (∀ (r' : QueuedRequest) (out : Except String String) (t1 t2 : ℚ),
          (process_request r' out t1 t2).2.1 = true →
          (process_request r' out t1 t2).1.retry_count ≤ r'.max_retries
          ∧ (process_request r' out t1 t2).1.status = .pending)) :=
  ⟨⟨rfl, rfl, by omega⟩,
    retry_exhaustion "boom" 5 (mkRequest "r1" "f" .normal 0 2) rfl rfl 10 (by omega)⟩

/-! ## Enqueue capacity (queue_manager.py `enqueue`) -/

/-- Outcome of `await queue.put(item)` on an `asyncio.PriorityQueue`
constructed with `maxsize` (queue_manager.py lines 71-73): when
`0 < maxsize` and the queue already holds `maxsize` items the coroutine
suspends until a slot frees — it never raises `QueueFull`; otherwise the
item is added. -/
inductive PutOutcome
  | ok (queue : List MemEntry)
  | suspends
deriving DecidableEq, Repr

/-- The bounded `put` of `asyncio.PriorityQueue`. -/
def queue_put (queue : List MemEntry) (maxsize : Nat) (e : MemEntry) :
    PutOutcome :=
  if 0 < maxsize ∧ maxsize ≤ queue.length then .suspends
  else .ok (queue ++ [e])

/-- Embeds `AsyncRequestQueue.enqueue` (queue_manager.py lines 226-273):
builds the PENDING request and awaits `self._queue.put((priority_value,
request.created_at, request))` on the queue bounded by `max_queue_size`. -/
def enqueue (queue : List MemEntry) (maxsize : Nat) (r : QueuedRequest) :
    PutOutcome :=
  queue_put queue maxsize (mkEntry r)

/-- C2 (code behaviour at the failing input): with `max_queue_size = 1` and
one pending item queued, a second `enqueue` suspends awaiting space on the
full queue instead of failing synchronously with a queue-full error; with a
free slot the same enqueue succeeds. -/
theorem enqueue_full_suspends :
    enqueue [mkEntry (mkRequest "r1" "f" .normal 0 3)] 1
        (mkRequest "r2" "f" .normal 1 3) = .suspends
    ∧ enqueue [] 1 (mkRequest "r2" "f" .normal 1 3)
        = .ok [mkEntry (mkRequest "r2" "f" .normal 1 3)] := by
  decide

/-! ## Queue state: cancellation and restart reload (queue_manager.py) -/

/-- The parts of `AsyncRequestQueue` state relevant to cancellation and to
the worker's dispatch decision (queue_manager.py lines 70-89): the
in-memory priority queue, the `_processing` and `_completed` maps (tracked
by their key sets), the `_functions` registry of request ids with a live
callable, and the persisted status column of the `queued_requests` table.
The registry is an `Option` because the `_functions` attribute is created
only lazily by the first `enqueue` (queue_manager.py lines 263-264): in a
freshly restarted process it does not exist (`none`). -/
structure QueueState where
  queue : List MemEntry
  processing : List String
  completed : List String
  functions : Option (List String)
  db : List (String × RequestStatus)
deriving DecidableEq, Repr

/-- The SQL `UPDATE queued_requests SET status = ? WHERE id = ?`
(queue_manager.py lines 326-329): rewrites the status of the row with the
given id, a no-op when no row matches. -/
def dbSetStatus (db : List (String × RequestStatus)) (id : String)
    (s : RequestStatus) : List (String × RequestStatus) :=
  db.map (fun p => if p.1 = id then (p.1, s) else p)

/-- Embeds `AsyncRequestQueue.cancel_request` (queue_manager.py lines
316-336): returns `false` when the id is in `_processing` or `_completed`;
otherwise updates the database row to CANCELLED (touching neither the
in-memory queue entry nor its status) and returns `true`. -/
def cancel_request (st : QueueState) (id : String) : Bool × QueueState :=
  if st.processing.contains id || st.completed.contains id then (false, st)
  else (true, { st with db := dbSetStatus st.db id .cancelled })

/-- What the worker does with a dequeued entry. -/
inductive WorkerAction
  | skippedCancelled
  | droppedAttributeError
  | failedNoFunction
  | processed
deriving DecidableEq, Repr

/-- Embeds the dispatch decision of `AsyncRequestQueue._worker`
(queue_manager.py lines 412-440): skip the entry if the in-memory
request's status is CANCELLED; otherwise evaluate
`self._functions.get(request.id)` — when the `_functions` attribute does
not exist (no enqueue since startup) this raises AttributeError, which the
worker's catch-all (line 439) swallows, silently dropping the already
dequeued request; when the registry exists but has no entry for the id the
request is marked FAILED ("Function not found"); otherwise it is
processed. -/
def workerClassify (st : QueueState) (e : MemEntry) : WorkerAction :=
  if e.req.status = .cancelled then .skippedCancelled
  else
    match st.functions with
    | none => .droppedAttributeError
    | some fns => if fns.contains e.req.id then .processed else .failedNoFunction

/-- The request as the worker leaves it when no callable is registered for
its id (queue_manager.py lines 429-433). -/
def workerFailNoFunction (r : QueuedRequest) : QueuedRequest :=
  { r with status := .failed, error := some "Function not found" }

/-- A pending request with a registered callable, and the queue state
holding it. -/
def exC5Req : QueuedRequest := mkRequest "r1" "f" .normal 0 3

/-- The queue state for the C5 scenario: one pending request in the queue,
nothing processing or completed. -/
def exC5State : QueueState :=
  { queue := [mkEntry exC5Req], processing := [], completed := [],
    functions := some ["r1"], db := [("r1", .pending)] }

/-- C5 (code behaviour at the failing inputs): `cancel_request` returns
`true` for an id that does not exist at all; cancelling the pending request
"r1" returns `true` and rewrites only the database row — the in-memory
queue entry keeps status PENDING, so the worker's cancelled-skip does not
fire and the request is still dispatched for processing; and cancelling the
same id a second time returns `true` again. -/
theorem cancel_request_code_bug :
    (cancel_request exC5State "unknown-id").1 = true
    ∧ (cancel_request exC5State "r1").1 = true
    ∧ (cancel_request exC5State "r1").2.db = [("r1", RequestStatus.cancelled)]
    ∧ (cancel_request exC5State "r1").2.queue = [mkEntry exC5Req]
    ∧ (mkEntry exC5Req).req.status = .pending
    ∧ workerClassify (cancel_request exC5State "r1").2 (mkEntry exC5Req) = .processed
    ∧ (cancel_request (cancel_request exC5State "r1").2 "r1").1 = true := by
  decide

/-! ## Restart reload (queue_manager.py `_load_pending_requests`) -/

/-- A persisted row of the `queued_requests` table (queue_manager.py lines
96-113). -/
structure DbRow where
  id : String
  function_name : String
  priority : RequestPriority
  status : RequestStatus
  created_at : ℚ
  started_at : Option ℚ
  completed_at : Option ℚ
  result : Option String
  error : Option String
  retry_count : Nat
  max_retries : Nat
deriving DecidableEq, Repr

/-- The `QueuedRequest` built from a persisted row on reload
(queue_manager.py lines 171-185): every field is copied except `status`,
which is reset to PENDING (line 177). -/
def rowToRequest (row : DbRow) : QueuedRequest :=
  { id := row.id, function_name := row.function_name, priority := row.priority,
    status := .pending,
    created_at := row.created_at, started_at := row.started_at,
    completed_at := row.completed_at, result := row.result, error := row.error,
    retry_count := row.retry_count, max_retries := row.max_retries }

/-- The `ORDER BY created_at` relation of the reload query. -/
def byCreatedAt (a b : DbRow) : Prop := a.created_at ≤ b.created_at

instance : DecidableRel byCreatedAt :=
  fun a b => inferInstanceAs (Decidable (a.created_at ≤ b.created_at))

instance : IsTotal DbRow byCreatedAt := ⟨fun _ _ => le_total _ _⟩

instance : IsTrans DbRow byCreatedAt := ⟨fun _ _ _ => le_trans⟩

/-- The filter of the reload query: rows whose stored status is PENDING or
PROCESSING (queue_manager.py lines 162-168). -/
def eligibleRow (r : DbRow) : Bool :=
  r.status == RequestStatus.pending || r.status == RequestStatus.processing

/-- The queue tuple built for a reloaded row (queue_manager.py lines
186-188). -/
def rowEntry (row : DbRow) : MemEntry :=
  ⟨get_priority_value row.priority, row.created_at, rowToRequest row⟩

/-- `asyncio.PriorityQueue.put_nowait` on a queue bounded by `maxsize`
(queue_manager.py lines 71-73, 188): raises `QueueFull` (the `.error`
case) when `0 < maxsize` and the queue already holds `maxsize` items,
otherwise appends. -/
def put_nowait (queue : List MemEntry) (maxsize : Nat) (e : MemEntry) :
    Except Unit (List MemEntry) :=
  if 0 < maxsize ∧ maxsize ≤ queue.length then .error ()
  else .ok (queue ++ [e])

/-- The reload loop (queue_manager.py lines 170-188): insert each row's
entry with `put_nowait`.  The whole loop runs inside a single try/except
(lines 160-193), so the first `QueueFull` aborts it and the remaining rows
are never inserted. -/
def loadLoop (maxsize : Nat) : List MemEntry → List DbRow → List MemEntry
  | queue, [] => queue
  | queue, row :: rest =>
    match put_nowait queue maxsize (rowEntry row) with
    | .ok queue' => loadLoop maxsize queue' rest
    | .error _ => queue

/-- Embeds `AsyncRequestQueue._load_pending_requests` (queue_manager.py
lines 155-193): select the rows whose status is PENDING or PROCESSING in
`created_at` order, rebuild each as a PENDING request, and `put_nowait`
`(priority_value, created_at, request)` into the in-memory queue `queue0`
bounded by `maxsize`, aborting at the first QueueFull. -/
def load_pending_requests (maxsize : Nat) (queue0 : List MemEntry)
    (rows : List DbRow) : List MemEntry :=
  loadLoop maxsize queue0 ((rows.filter eligibleRow).insertionSort byCreatedAt)

/-- The entries of all eligible rows in persisted creation-time order —
what the reload would insert if the queue had unlimited capacity. -/
def loadEntries (rows : List DbRow) : List MemEntry :=
  ((rows.filter eligibleRow).insertionSort byCreatedAt).map rowEntry

theorem loadLoop_eq (maxsize : Nat) :
    ∀ (rows : List DbRow) (queue : List MemEntry),
      loadLoop maxsize queue rows
        = if 0 < maxsize
          then queue ++ (rows.map rowEntry).take (maxsize - queue.length)
          else queue ++ rows.map rowEntry := by
  intro rows
  induction rows with
  | nil =>
    intro queue
    by_cases h : 0 < maxsize <;> simp [loadLoop, h]
  | cons row rest ih =>
    intro queue
    by_cases h : 0 < maxsize
    · by_cases hfull : maxsize ≤ queue.length
      · have hz : maxsize - queue.length = 0 := by omega
        simp [loadLoop, put_nowait, h, hfull, hz]
      · have hcond : ¬ (0 < maxsize ∧ maxsize ≤ queue.length) := fun hc => hfull hc.2
        simp only [loadLoop, put_nowait, if_neg hcond]
        rw [ih (queue ++ [rowEntry row])]
        have hsucc : maxsize - queue.length = (maxsize - (queue.length + 1)) + 1 := by
          omega
        simp only [List.length_append, List.length_cons, List.length_nil, if_pos h,
          List.map_cons, hsucc, List.take_succ_cons, List.append_assoc,
          List.singleton_append, Nat.add_zero]
    · have hcond : ¬ (0 < maxsize ∧ maxsize ≤ queue.length) := fun hc => h hc.1
      simp only [loadLoop, put_nowait, if_neg hcond]
      rw [ih (queue ++ [rowEntry row])]
      simp [h, List.append_assoc]

/-- A row persisted as PROCESSING at shutdown. -/
def exC8Row : DbRow :=
  { id := "r1", function_name := "generate_image", priority := .normal,
    status := .processing, created_at := 100, started_at := some 101,
    completed_at := none, result := none, error := none,
    retry_count := 0, max_retries := 3 }

/-- The state of a freshly restarted process (default `max_queue_size`
100) that reloaded the row: no enqueue has happened since startup, so the
`_functions` attribute does not exist. -/
def exC8State : QueueState :=
  { queue := load_pending_requests 100 [] [exC8Row], processing := [],
    completed := [], functions := none, db := [("r1", .processing)] }

/-- The same restarted process after one unrelated enqueue created the
registry: the reloaded id is still missing from it. -/
def exC8StateReg : QueueState :=
  { queue := load_pending_requests 100 [] [exC8Row], processing := [],
    completed := [], functions := some ["other-id"],
    db := [("r1", .processing)] }

/-- A second row persisted as PROCESSING at shutdown, created later. -/
def exC8Row2 : DbRow :=
  { id := "r2", function_name := "generate_image", priority := .normal,
    status := .processing, created_at := 200, started_at := some 201,
    completed_at := none, result := none, error := none,
    retry_count := 0, max_retries := 3 }

/-- Counterexample for C8 as stated: the PROCESSING row is reloaded as
PENDING, but after a process restart it is never "processed again" — with
no enqueue since startup the `_functions` attribute does not exist, so the
worker's lookup raises AttributeError and its catch-all silently drops the
dequeued request; if an enqueue has since created the registry, the worker
instead marks the request FAILED with error "Function not found".  And
with `max_queue_size = 1`, reloading two persisted rows loses the second
to QueueFull, so not even re-insertion of every row holds. -/
theorem restart_redispatch_counterexample :
    (load_pending_requests 100 [] [exC8Row]).map (fun e => e.req.status)
        = [RequestStatus.pending]
    ∧ workerClassify exC8State (rowEntry exC8Row) = .droppedAttributeError
    ∧ WorkerAction.droppedAttributeError ≠ WorkerAction.processed
    ∧ workerClassify exC8StateReg (rowEntry exC8Row) = .failedNoFunction
    ∧ WorkerAction.failedNoFunction ≠ WorkerAction.processed
    ∧ (workerFailNoFunction (rowToRequest exC8Row)).status = .failed
    ∧ (workerFailNoFunction (rowToRequest exC8Row)).error
        = some "Function not found"
    ∧ (load_pending_requests 1 [] [exC8Row, exC8Row2]).length = 1 := by
  decide

/-- C8 (amended): on startup the persisted requests whose stored status is
PENDING or PROCESSING are reloaded with status PENDING and re-inserted
into the in-memory queue in persisted creation-time order, but only up to
the queue's capacity — the bounded `put_nowait` raises QueueFull, which
aborts the reload loop, so with a positive bound exactly the first
`max_queue_size` eligible rows are inserted (all of them exactly when they
fit, or when the bound is zero, i.e. unbounded).  A reloaded request is
eventually dequeued but never processed again: when no enqueue has created
the `_functions` registry the worker's lookup raises AttributeError and
the catch-all silently drops the request, and when the registry exists but
lacks the id the worker marks it FAILED ("Function not found"). -/
theorem restart_reload (maxsize : Nat) (rows : List DbRow) :
    (load_pending_requests maxsize [] rows
      = if 0 < maxsize then (loadEntries rows).take maxsize
        else loadEntries rows)
    ∧ (∀ e ∈ load_pending_requests maxsize [] rows, e.req.status = .pending)
    ∧ List.Sorted (· ≤ ·)
        ((load_pending_requests maxsize [] rows).map (fun e => e.createdAt))
    ∧ ((loadEntries rows).length ≤ maxsize ∨ maxsize = 0 →
        ((load_pending_requests maxsize [] rows).map (fun e => e.req.id)).Perm
          ((rows.filter eligibleRow).map (fun r => r.id)))
    ∧ (∀ e ∈ load_pending_requests maxsize [] rows, ∀ st : QueueState,
        (st.functions = none →
          workerClassify st e = .droppedAttributeError
          ∧ workerClassify st e ≠ .processed)
        ∧ (∀ fns, st.functions = some fns → fns.contains e.req.id = false →
            workerClassify st e = .failedNoFunction
            ∧ workerClassify st e ≠ .processed)) := by
  have hmain : load_pending_requests maxsize [] rows
      = if 0 < maxsize then (loadEntries rows).take maxsize
        else loadEntries rows := by
    rw [load_pending_requests, loadLoop_eq]
    by_cases h : 0 < maxsize
    · simp [h, loadEntries]
    · simp [h, loadEntries]
  have hmem : ∀ e ∈ load_pending_requests maxsize [] rows,
      e ∈ loadEntries rows := by
    intro e he
    rw [hmain] at he
    by_cases h : 0 < maxsize
    · rw [if_pos h] at he
      exact List.take_subset _ _ he
    · rw [if_neg h] at he
      exact he
  have hpend : ∀ e ∈ loadEntries rows, e.req.status = .pending := by
    intro e he
    simp only [loadEntries, List.mem_map] at he
    obtain ⟨row, _, rfl⟩ := he
    rfl
  have hsorted_all : List.Sorted (· ≤ ·)
      ((loadEntries rows).map (fun e => e.createdAt)) := by
    have hs : List.Sorted byCreatedAt
        ((rows.filter eligibleRow).insertionSort byCreatedAt) :=
      List.sorted_insertionSort byCreatedAt _
    simp only [loadEntries, List.Sorted, List.map_map, List.pairwise_map]
    exact hs.imp (fun hab => hab)
  refine ⟨hmain, fun e he => hpend e (hmem e he), ?_, ?_, ?_⟩
  · rw [hmain]
    by_cases h : 0 < maxsize
    · rw [if_pos h]
      have hsub : List.Sublist
          (((loadEntries rows).take maxsize).map (fun e => e.createdAt))
          ((loadEntries rows).map (fun e => e.createdAt)) :=
        (List.take_sublist maxsize (loadEntries rows)).map _
      exact hsorted_all.sublist hsub
    · rw [if_neg h]
      exact hsorted_all
  · intro hcap
    have hall : load_pending_requests maxsize [] rows = loadEntries rows := by
      rw [hmain]
      rcases hcap with hle | hz
      · by_cases h : 0 < maxsize
        · rw [if_pos h]
          exact List.take_of_length_le hle
        · rw [if_neg h]
      · rw [hz]
        simp
    rw [hall]
    simp only [loadEntries, List.map_map]
    have hperm := List.perm_insertionSort byCreatedAt (rows.filter eligibleRow)
    exact hperm.map _
  · intro e he st
    have hst : e.req.status = .pending := hpend e (hmem e he)
    have hnc : ¬ e.req.status = RequestStatus.cancelled := by
      rw [hst]
      intro hcontr
      cases hcontr
    constructor
    · intro hfn
      simp [workerClassify, hnc, hfn]
    · intro fns hfn hid
      have hid' : e.req.id ∉ fns := by simpa using hid
      simp [workerClassify, hnc, hfn, hid']

/-! ## Waiting for completion (queue_manager.py `wait_for_completion`) -/

/-- The terminal statuses tested at queue_manager.py lines 488-492. -/
def isTerminal : RequestStatus → Bool
  | .completed => true
  | .failed => true
  | .cancelled => true
  | _ => false

/-- Python truthiness of the optional `timeout` argument as used in
`if timeout and ... > timeout` (queue_manager.py line 495): `None` and `0`
are falsy. -/
def timeoutTruthy : Option ℚ → Bool
  | none => false
  | some t => decide (t ≠ 0)

/-- The possible outcomes of the wait loop. -/
inductive WaitOutcome
  | found (s : RequestStatus)
  | notFound
  | timedOut
  | pollsExhausted
deriving DecidableEq, Repr

/-- Embeds `AsyncRequestQueue.wait_for_completion` (queue_manager.py lines
464-500) as a poll loop over the observed `get_status` results: poll `k`
sees `status k` at `elapsed k` seconds after `start_time`.  An unknown id
raises ValueError (`notFound`); a terminal status is returned (`found`);
otherwise, if `timeout` is truthy and the elapsed time exceeds it,
`asyncio.TimeoutError` is raised (`timedOut`); else the loop sleeps 0.1 s
and polls again.  The loop only reads state and never writes any request
field.  `fuel` bounds the modelled unrolling. -/
def wait_for_completion (status : Nat → Option RequestStatus)
    (elapsed : Nat → ℚ) (timeout : Option ℚ) : Nat → Nat → WaitOutcome
  | _, 0 => .pollsExhausted
  | k, fuel + 1 =>
    match status k with
    | none => .notFound
    | some s =>
      if isTerminal s then .found s
      else if timeoutTruthy timeout && decide (timeout.getD 0 < elapsed k)
      then .timedOut
      else wait_for_completion status elapsed timeout (k + 1) fuel

/-- C9: with polls `0..n-1` observing a known, non-terminal status within
the deadline, the loop started at poll `k` (with enough fuel) returns the
request exactly when poll `n` observes a terminal status, raises the
not-found error when poll `n` observes an unknown id, and raises the
timeout error when poll `n` observes a non-terminal status past the truthy
deadline — and, the model being read-only, no request status is mutated in
any of these cases. -/
theorem wait_for_completion_spec (status : Nat → Option RequestStatus)
    (elapsed : Nat → ℚ) (timeout : Option ℚ) :
    ∀ (n k fuel : Nat), n < fuel →
      (∀ j < n, ∃ s, status (k + j) = some s ∧ isTerminal s = false
        ∧ (timeoutTruthy timeout
            && decide (timeout.getD 0 < elapsed (k + j))) = false) →
      ((∀ s, status (k + n) = some s → isTerminal s = true →
          wait_for_completion status elapsed timeout k fuel = .found s)
      ∧ (status (k + n) = none →
          wait_for_completion status elapsed timeout k fuel = .notFound)
      ∧ (∀ s, status (k + n) = some s → isTerminal s = false →
          (timeoutTruthy timeout
            && decide (timeout.getD 0 < elapsed (k + n))) = true →
          wait_for_completion status elapsed timeout k fuel = .timedOut)) := by
  intro n
  induction n with
  | zero =>
    intro k fuel hfuel _
    obtain ⟨fuel', rfl⟩ : ∃ f, fuel = f + 1 := ⟨fuel - 1, by omega⟩
    refine ⟨?_, ?_, ?_⟩
    · intro s hs ht
      simp only [Nat.add_zero] at hs
      simp [wait_for_completion, hs, ht]
    · intro hs
      simp only [Nat.add_zero] at hs
      simp [wait_for_completion, hs]
    · intro s hs ht hto
      simp only [Nat.add_zero] at hs hto
      simp [wait_for_completion, hs, ht, hto]
  | succ n ih =>
    intro k fuel hfuel hbefore
    obtain ⟨fuel', rfl⟩ : ∃ f, fuel = f + 1 := ⟨fuel - 1, by omega⟩
    obtain ⟨s0, hs0, hterm0, hto0⟩ := hbefore 0 (by omega)
    simp only [Nat.add_zero] at hs0 hterm0 hto0
    have hstep : wait_for_completion status elapsed timeout k (fuel' + 1)
        = wait_for_completion status elapsed timeout (k + 1) fuel' := by
      simp [wait_for_completion, hs0, hterm0, hto0]
    have hbefore' : ∀ j < n, ∃ s, status (k + 1 + j) = some s
        ∧ isTerminal s = false
        ∧ (timeoutTruthy timeout
            && decide (timeout.getD 0 < elapsed (k + 1 + j))) = false := by
      intro j hj
      have heq : k + 1 + j = k + (j + 1) := by omega
      rw [heq]
      exact hbefore (j + 1) (by omega)
    have hih := ih (k + 1) fuel' (by omega) hbefore'
    have heqn : k + 1 + n = k + (n + 1) := by omega
    rw [heqn] at hih
    exact ⟨fun s hs ht => by rw [hstep]; exact hih.1 s hs ht,
      fun hs => by rw [hstep]; exact hih.2.1 hs,
      fun s hs ht hto => by rw [hstep]; exact hih.2.2 s hs ht hto⟩

/-- The status observations of the C9 witness scenario: PROCESSING for two
polls, then COMPLETED. -/
def exC9Status : Nat → Option RequestStatus :=
  fun i => if i < 2 then some .processing else some .completed

/-- The elapsed clock of the C9 witness scenario: half a second per poll. -/
def exC9Elapsed : Nat → ℚ := fun i => (i : ℚ) / 2

/-- Witness for C9: a request that is PROCESSING for two polls and
COMPLETED at the third, with a 10-second deadline never reached. -/
theorem wait_for_completion_spec_witness :
    ((2 : Nat) < 4
     ∧ (∀ j < 2, ∃ s, exC9Status (0 + j) = some s
        ∧ isTerminal s = false
        ∧ (timeoutTruthy (some 10)
            && decide ((some (10 : ℚ)).getD 0 < exC9Elapsed (0 + j))) = false))
    ∧ ((∀ s, exC9Status (0 + 2) = some s → isTerminal s = true →
          wait_for_completion exC9Status exC9Elapsed (some 10) 0 4 = .found s)
      ∧ (exC9Status (0 + 2) = none →
          wait_for_completion exC9Status exC9Elapsed (some 10) 0 4 = .notFound)
      ∧ (∀ s, exC9Status (0 + 2) = some s → isTerminal s = false →
          (timeoutTruthy (some 10)
            && decide ((some (10 : ℚ)).getD 0 < exC9Elapsed (0 + 2))) = true →
          wait_for_completion exC9Status exC9Elapsed (some 10) 0 4
            = .timedOut)) := by
  have hside : ∀ j < 2, ∃ s, exC9Status (0 + j) = some s
      ∧ isTerminal s = false
      ∧ (timeoutTruthy (some 10)
          && decide ((some (10 : ℚ)).getD 0 < exC9Elapsed (0 + j))) = false := by
    intro j hj
    interval_cases j
    · exact ⟨.processing, rfl, rfl, by norm_num [exC9Elapsed, timeoutTruthy]⟩
    · exact ⟨.processing, rfl, rfl, by norm_num [exC9Elapsed, timeoutTruthy]⟩
  exact ⟨⟨by omega, hside⟩,
    wait_for_completion_spec exC9Status exC9Elapsed (some 10) 2 0 4 (by omega) hside⟩

/-! ## Circuit breaker (retry_handler.py) -/

/-- The Python exceptions relevant to the circuit-breaker claims: a
malformed-caller-input `ValidationError` (exceptions.py lines 52-56), a
dependency-side `NetworkError`, and a generic runtime error. -/
inductive PyExc
  | validationError (msg : String)
  | networkError (msg : String)
  | runtimeError (msg : String)
deriving DecidableEq, Repr

/-- Exception classes an `expected_exception` predicate can name. -/
inductive ExcType
  | excException
  | excValidationError
  | excNetworkError
deriving DecidableEq, Repr

/-- Python `isinstance` on the modelled exceptions: every exception is an
instance of the base class `Exception`. -/
def isinstance : PyExc → ExcType → Bool
  | _, .excException => true
  | .validationError _, .excValidationError => true
  | .networkError _, .excNetworkError => true
  | _, _ => false

/-- The circuit-breaker states (retry_handler.py line 49). -/
inductive CBState
  | CLOSED
  | OPEN
  | HALF_OPEN
deriving DecidableEq, Repr

/-- Embeds the `CircuitBreaker` state (retry_handler.py lines 35-49). -/
structure CircuitBreaker where
  failure_threshold : Nat
  timeout : ℚ
  expected_exception : ExcType
  failure_count : Nat
  last_failure_time : Option ℚ
  state : CBState
deriving DecidableEq, Repr

/-- Embeds `CircuitBreaker.can_proceed` (retry_handler.py lines 51-66):
CLOSED always proceeds; OPEN proceeds (moving to HALF_OPEN) once
`timeout` seconds have elapsed since the last failure — the Python
condition `if self.last_failure_time and ...` also requires the stored
float to be truthy, hence the `t ≠ 0` conjunct; HALF_OPEN proceeds. -/
def CircuitBreaker.can_proceed (cb : CircuitBreaker) (now : ℚ) :
    Bool × CircuitBreaker :=
  match cb.state with
  | .CLOSED => (true, cb)
  | .OPEN =>
    match cb.last_failure_time with
    | some t =>
      if t ≠ 0 ∧ cb.timeout ≤ now - t then (true, { cb with state := .HALF_OPEN })
      else (false, cb)
    | none => (false, cb)
  | .HALF_OPEN => (true, cb)

/-- Embeds `CircuitBreaker.on_success` (retry_handler.py lines 68-71). -/
def CircuitBreaker.on_success (cb : CircuitBreaker) : CircuitBreaker :=
  { cb with
    failure_count := 0
    state := .CLOSED }

/-- Embeds `CircuitBreaker.on_failure` (retry_handler.py lines 73-83): the
counter is incremented and the failure time recorded only when the
exception is an instance of `expected_exception`; reaching
`failure_threshold` opens the breaker. -/
def CircuitBreaker.on_failure (cb : CircuitBreaker) (e : PyExc) (now : ℚ) :
    CircuitBreaker :=
  if isinstance e cb.expected_exception then
    let cb1 := { cb with
      failure_count := cb.failure_count + 1
      last_failure_time := some now }
    if cb1.failure_threshold ≤ cb1.failure_count then { cb1 with state := .OPEN }
    else cb1
  else cb

/-- The module-level breaker guarding Gemini API calls (retry_handler.py
lines 86-91): threshold 3, 300-second cooldown, and — crucially —
`expected_exception = Exception`. -/
def gemini_circuit_breaker : CircuitBreaker :=
  { failure_threshold := 3, timeout := 300, expected_exception := .excException,
    failure_count := 0, last_failure_time := none, state := .CLOSED }

/-- `map_google_exception` (retry_handler.py lines 94-117) translates
google_exceptions classes; the modelled exception set contains none of
them, so only the final `else` branch applies and the mapping is the
identity. -/
def map_google_exception (e : PyExc) : PyExc := e

/-- Result of one guarded call through the `circuit_breaker_check`
decorator. -/
inductive CallOutcome
  | circuitOpen (cb : CircuitBreaker)
  | success (cb : CircuitBreaker)
  | raised (e : PyExc) (cb : CircuitBreaker)
deriving DecidableEq, Repr

/-- Embeds the `circuit_breaker_check` wrapper (retry_handler.py lines
120-137): if `can_proceed` denies, `CircuitBreakerOpenError` is raised
without invoking the workload (`circuitOpen`, independent of the workload
parameter); otherwise the workload runs — `none` models success (then
`on_success`), `some e` models a raised exception (then mapping and
`on_failure`, re-raising the mapped exception). -/
def circuit_breaker_call (cb : CircuitBreaker) (now : ℚ)
    (workload : Option PyExc) : CallOutcome :=
  let step := cb.can_proceed now
  if step.1 then
    match workload with
    | none => .success step.2.on_success
    | some e =>
      let me := map_google_exception e
      .raised me (step.2.on_failure me now)
  else .circuitOpen step.2

/-- The breaker state left by a guarded call, whatever its outcome. -/
def afterCall (cb : CircuitBreaker) (t : ℚ) (w : Option PyExc) : CircuitBreaker :=
  match circuit_breaker_call cb t w with
  | .circuitOpen cb' => cb'
  | .success cb' => cb'
  | .raised _ cb' => cb'

/-- Folds a sequence of failing guarded calls over the breaker. -/
def failN (cb : CircuitBreaker) (l : List (PyExc × ℚ)) : CircuitBreaker :=
  l.foldl (fun c p => afterCall c p.2 (some p.1)) cb

/-- A freshly constructed breaker (retry_handler.py lines 38-49). -/
def freshBreaker (threshold : Nat) (cd : ℚ) (exp : ExcType) : CircuitBreaker :=
  { failure_threshold := threshold, timeout := cd, expected_exception := exp,
    failure_count := 0, last_failure_time := none, state := .CLOSED }

/-- C6: with failure_threshold = 3, three consecutive recorded failures
(each matching the expected-exception predicate) move the breaker to OPEN
with failure_count 3; every call attempted while OPEN before the cooldown
elapses yields CircuitBreakerOpenError without invoking the workload (the
outcome is the same whatever the workload would do) and leaves the breaker
unchanged; once `cooldown` seconds have elapsed since the last failure the
next call is allowed through in HALF_OPEN, and a success there returns the
breaker to CLOSED with failure_count 0. -/
theorem circuit_breaker_behaviour (exp : ExcType) (cd : ℚ)
    (e1 e2 e3 : PyExc) (t1 t2 t3 t4 t5 : ℚ)
    (h1 : isinstance e1 exp = true) (h2 : isinstance e2 exp = true)
    (h3 : isinstance e3 exp = true)
    (ht3 : t3 ≠ 0) (ht4 : t4 - t3 < cd) (ht5 : cd ≤ t5 - t3) :
    (failN (freshBreaker 3 cd exp) [(e1, t1), (e2, t2), (e3, t3)]).state = .OPEN
    ∧ (failN (freshBreaker 3 cd exp) [(e1, t1), (e2, t2), (e3, t3)]).failure_count = 3
    ∧ (∀ w, circuit_breaker_call
          (failN (freshBreaker 3 cd exp) [(e1, t1), (e2, t2), (e3, t3)]) t4 w
        = .circuitOpen (failN (freshBreaker 3 cd exp) [(e1, t1), (e2, t2), (e3, t3)]))
    ∧ ((failN (freshBreaker 3 cd exp) [(e1, t1), (e2, t2), (e3, t3)]).can_proceed t5).1
        = true
    ∧ ((failN (freshBreaker 3 cd exp) [(e1, t1), (e2, t2), (e3, t3)]).can_proceed t5).2.state
        = .HALF_OPEN
    ∧ (∃ cbf, circuit_breaker_call
          (failN (freshBreaker 3 cd exp) [(e1, t1), (e2, t2), (e3, t3)]) t5 none
        = .success cbf ∧ cbf.state = .CLOSED ∧ cbf.failure_count = 0) := by
  have hA : failN (freshBreaker 3 cd exp) [(e1, t1), (e2, t2), (e3, t3)]
      = ⟨3, cd, exp, 3, some t3, .OPEN⟩ := by
    simp [failN, afterCall, circuit_breaker_call, CircuitBreaker.can_proceed,
      CircuitBreaker.on_failure, map_google_exception, freshBreaker, h1, h2, h3]
  have hcond4 : ¬ ((t3 : ℚ) ≠ 0 ∧ cd ≤ t4 - t3) := by
    rintro ⟨-, hc⟩
    linarith
  have hcond5 : (t3 : ℚ) ≠ 0 ∧ cd ≤ t5 - t3 := ⟨ht3, ht5⟩
  rw [hA]
  refine ⟨rfl, rfl, ?_, ?_, ?_, ?_⟩
  · intro w
    simp [circuit_breaker_call, CircuitBreaker.can_proceed, hcond4]
  · simp [CircuitBreaker.can_proceed, hcond5]
  · simp [CircuitBreaker.can_proceed, hcond5]
  · exact ⟨⟨3, cd, exp, 0, some t3, .CLOSED⟩,
      by simp [circuit_breaker_call, CircuitBreaker.can_proceed, hcond5,
        CircuitBreaker.on_success], rfl, rfl⟩

/-- Witness for C6 at threshold 3, cooldown 300, network failures at
times 100, 200, 300, a blocked call at 400 and a successful probe at 650. -/
theorem circuit_breaker_behaviour_witness :
    (isinstance (.networkError "x") .excException = true
     ∧ (300 : ℚ) ≠ 0 ∧ (400 : ℚ) - 300 < 300 ∧ (300 : ℚ) ≤ 650 - 300)
    ∧ ((failN (freshBreaker 3 300 .excException)
          [(.networkError "x", 100), (.networkError "x", 200),
           (.networkError "x", 300)]).state = .OPEN
      ∧ (failN (freshBreaker 3 300 .excException)
          [(.networkError "x", 100), (.networkError "x", 200),
           (.networkError "x", 300)]).failure_count = 3
      ∧ (∀ w, circuit_breaker_call
            (failN (freshBreaker 3 300 .excException)
              [(.networkError "x", 100), (.networkError "x", 200),
               (.networkError "x", 300)]) 400 w
          = .circuitOpen (failN (freshBreaker 3 300 .excException)
              [(.networkError "x", 100), (.networkError "x", 200),
               (.networkError "x", 300)]))
      ∧ ((failN (freshBreaker 3 300 .excException)
            [(.networkError "x", 100), (.networkError "x", 200),
             (.networkError "x", 300)]).can_proceed 650).1 = true
      ∧ ((failN (freshBreaker 3 300 .excException)
            [(.networkError "x", 100), (.networkError "x", 200),
             (.networkError "x", 300)]).can_proceed 650).2.state = .HALF_OPEN
      ∧ (∃ cbf, circuit_breaker_call
            (failN (freshBreaker 3 300 .excException)
              [(.networkError "x", 100), (.networkError "x", 200),
               (.networkError "x", 300)]) 650 none
          = .success cbf ∧ cbf.state = .CLOSED ∧ cbf.failure_count = 0)) :=
  ⟨⟨rfl, by norm_num, by norm_num, by norm_num⟩,
    circuit_breaker_behaviour .excException 300 (.networkError "x")
      (.networkError "x") (.networkError "x") 100 200 300 400 650
      rfl rfl rfl (by norm_num) (by norm_num) (by norm_num)⟩

/-- Counterexample for C7 as stated: the breaker guarding Gemini calls is
configured with `expected_exception = Exception`, which every exception —
including a caller-input `ValidationError` — matches, so a ValidationError
does increment the consecutive-failure counter, and three of them open the
breaker. -/
theorem validation_error_trips_breaker :
    (gemini_circuit_breaker.on_failure (.validationError "bad input") 100).failure_count
        = 1
    ∧ gemini_circuit_breaker.failure_count = 0
    ∧ (failN gemini_circuit_breaker
        [(.validationError "a", 10), (.validationError "b", 20),
         (.validationError "c", 30)]).state = .OPEN := by
  decide

/-- C7 (amended): `on_failure` increments the consecutive-failure counter
exactly when the exception is an instance of the configured
`expected_exception` (leaving the breaker untouched otherwise); but the
breaker guarding Gemini dependency calls is configured with
`expected_exception = Exception`, which every exception matches, so errors
not caused by the dependency (such as a ValidationError) do increment the
counter and can open the breaker. -/
theorem on_failure_predicate (cb : CircuitBreaker) (e : PyExc) (now : ℚ) :
    ((cb.on_failure e now).failure_count
      = if isinstance e cb.expected_exception then cb.failure_count + 1
        else cb.failure_count)
    ∧ (isinstance e cb.expected_exception = false → cb.on_failure e now = cb)
    ∧ isinstance e .excException = true
    ∧ gemini_circuit_breaker.expected_exception = .excException := by
  refine ⟨?_, ?_, ?_, rfl⟩
  · by_cases h : isinstance e cb.expected_exception = true
    · by_cases h2 : cb.failure_threshold ≤ cb.failure_count + 1
      · simp [CircuitBreaker.on_failure, h, h2]
      · simp [CircuitBreaker.on_failure, h, h2]
    · simp only [Bool.not_eq_true] at h
      simp [CircuitBreaker.on_failure, h]
  · intro h
    simp [CircuitBreaker.on_failure, h]
  · cases e <;> rfl

/-! ## Tuple comparison inside the heap (queue_manager.py + CPython heapq)

`asyncio.PriorityQueue.put` pushes the tuple `(priority_value, created_at,
request)` with `heapq.heappush`.  Python tuple `<` skips equal prefixes
using `==` and applies `<` to the first differing elements; when the two
numeric key fields are equal and the payloads differ, it evaluates
`request1 < request2` — and `QueuedRequest` is a `@dataclass` without
`order=True`, so that comparison raises `TypeError`. -/

/-- Python `<` on two queue tuples; `.error ()` models the `TypeError`
raised when the comparison falls through to the unorderable
`QueuedRequest` payloads. -/
def entryLt (a b : MemEntry) : Except Unit Bool :=
  if a.priorityValue ≠ b.priorityValue then
    .ok (decide (a.priorityValue < b.priorityValue))
  else if a.createdAt ≠ b.createdAt then
    .ok (decide (a.createdAt < b.createdAt))
  else if a.req = b.req then .ok false
  else .error ()

/-- CPython `heapq._siftdown(heap, startpos, pos)`: bubble the new item at
`pos` up past larger parents.  The loop runs at most `pos` iterations,
bounded here by structural fuel; any `TypeError` from a comparison
propagates. -/
def siftdown (newitem : MemEntry) (startpos : Nat) :
    Nat → Nat → List MemEntry → Except Unit (List MemEntry)
  | 0, pos, heap => .ok (heap.set pos newitem)
  | fuel + 1, pos, heap =>
    if startpos < pos then
      let parentpos := (pos - 1) / 2
      match heap.get? parentpos with
      | none => .ok (heap.set pos newitem)
      | some parent =>
        match entryLt newitem parent with
        | .error e => .error e
        | .ok true => siftdown newitem startpos fuel parentpos (heap.set pos parent)
        | .ok false => .ok (heap.set pos newitem)
    else .ok (heap.set pos newitem)

/-- CPython `heapq.heappush(heap, item)`: append then sift down from the
last position. -/
def heappush (heap : List MemEntry) (item : MemEntry) :
    Except Unit (List MemEntry) :=
  siftdown item 0 (heap.length + 1) heap.length (heap ++ [item])

/-- Two distinct requests with equal priority and equal created_at, as
produced by two enqueues (or a retry re-enqueue, queue_manager.py line
389) at the same clock reading. -/
def exC10ReqA : QueuedRequest := mkRequest "a" "f" .high 0 3

/-- The second of the two equal-key requests. -/
def exC10ReqB : QueuedRequest := mkRequest "b" "f" .high 0 3

/-- C10: pushing two requests with equal priority and equal created_at into
the priority queue forces Python to compare the two `QueuedRequest`
payloads, which are not orderable, so the push raises TypeError instead of
producing a well-defined order: the first push succeeds, the second —
whose sift-down immediately compares the new tuple with its equal-keyed
parent — fails. -/
theorem equal_key_push_type_error :
    heappush [] (mkEntry exC10ReqA) = .ok [mkEntry exC10ReqA]
    ∧ heappush [mkEntry exC10ReqA] (mkEntry exC10ReqB) = .error ()
    ∧ (mkEntry exC10ReqA).priorityValue = (mkEntry exC10ReqB).priorityValue
    ∧ (mkEntry exC10ReqA).createdAt = (mkEntry exC10ReqB).createdAt
    ∧ exC10ReqA ≠ exC10ReqB := by
  exact ⟨rfl, rfl, rfl, rfl, by decide⟩
